import Mathlib

/-!
Verification of the booking availability and equipment allocation engine of the
`availabilityTracker` repository (a Django application).  The Python sources are
embedded shallowly: model rows become Lean structures, pure methods become Lean
functions, Django signal handlers become explicit state-transforming functions,
and the database tables consulted by a method become explicit list parameters.

Conventions used throughout:
* calendar dates are integers counting days, with `weekday d = d % 7`
  (day 0 is a Monday, matching Python's `date.weekday()` convention of
  Monday = 0);
* date-times are integers counting minutes, so `timedelta(days = n)` is
  `n * 1440` and `timedelta(hours = h)` is `h * 60`;
* `Decimal` weights are rationals;
* a Django queryset `filter(...)` is a `List.filter`, and `.count()` is
  `List.length` of the filtered list.
-/

/-! ## Credit ledger: `cards/models.py` (`SessionCard`) -/

/-- Status choices of `SessionCard.STATUS_CHOICES`. -/
inductive CardStatus where
  | active
  | expired
  | completed
deriving DecidableEq, Repr

/-- The fields of `cards/models.py` `SessionCard` that the ledger logic reads
or writes (`total_sessions`, `sessions_used`, `status`). -/
structure SessionCard where
  total_sessions : Nat
  sessions_used : Nat
  status : CardStatus
deriving DecidableEq, Repr

/-- `SessionCard.sessions_remaining`: `max(0, total - used)`, which on `Nat` is
truncated subtraction. -/
def SessionCard.sessions_remaining (c : SessionCard) : Nat :=
  c.total_sessions - c.sessions_used

/-- `SessionCard.is_valid`: active and with sessions remaining. -/
def SessionCard.is_valid (c : SessionCard) : Prop :=
  c.status = CardStatus.active ∧ 0 < c.sessions_remaining

instance (c : SessionCard) : Decidable c.is_valid := by
  unfold SessionCard.is_valid
  infer_instance

/-- `SessionCard.save`: before persisting, auto-set `status = 'completed'`
whenever `sessions_used >= total_sessions`. -/
def SessionCard.save (c : SessionCard) : SessionCard :=
  if c.total_sessions ≤ c.sessions_used then
    { c with status := CardStatus.completed }
  else
    c

/-- `SessionCard.use_session`: raises (`none`) when the card is not valid;
otherwise increments `sessions_used`, marks the card completed when no
sessions remain, and saves. -/
def SessionCard.use_session (c : SessionCard) : Option SessionCard :=
  if c.is_valid then
    let c1 := { c with sessions_used := c.sessions_used + 1 }
    let c2 :=
      if c1.sessions_remaining = 0 then { c1 with status := CardStatus.completed } else c1
    some c2.save
  else
    none

/-- The card mutation performed by the `pre_delete` handler
`return_card_session_on_delete` in `bookings/models.py`: decrement
`sessions_used` (floored at 0), reactivate a completed card that regained a
session, and save. -/
def SessionCard.return_session (c : SessionCard) : SessionCard :=
  let c1 := { c with sessions_used := c.sessions_used - 1 }
  let c2 :=
    if c1.status = CardStatus.completed ∧ 0 < c1.sessions_remaining then
      { c1 with status := CardStatus.active }
    else
      c1
  c2.save

/-- The ledger invariant of the specification:
`status == completed ⇔ sessions_used >= total_sessions`. -/
def CardInv (c : SessionCard) : Prop :=
  c.status = CardStatus.completed ↔ c.total_sessions ≤ c.sessions_used

/-- A successful `use_session` always lands in a state satisfying the ledger
invariant (no precondition needed: validity is checked by the method itself). -/
theorem use_session_inv (c c' : SessionCard) (h : c.use_session = some c') :
    CardInv c' := by
  obtain ⟨t, u, s⟩ := c
  simp only [SessionCard.use_session, SessionCard.is_valid,
    SessionCard.sessions_remaining, SessionCard.save] at h
  split at h
  · rename_i hv
    obtain ⟨hs, hr⟩ := hv
    subst hs
    split at h <;> split at h <;>
      (injection h with h; subst h; simp_all [CardInv]) <;> omega
  · exact absurd h (by simp)

/-- C6: every ledger mutation (`save`, `use_session`, the `return` handler)
preserves the invariant `status == 'completed' ⇔ sessions_used >= total_sessions`. -/
theorem sessionCard_completed_iff_exhausted_preserved
    (c : SessionCard) (h : CardInv c) :
    CardInv c.save
      ∧ (∀ c', c.use_session = some c' → CardInv c')
      ∧ CardInv c.return_session := by
  refine ⟨?_, fun c' hc' => use_session_inv c c' hc', ?_⟩
  · obtain ⟨t, u, s⟩ := c
    simp only [CardInv] at h
    simp only [CardInv, SessionCard.save]
    split <;> simp_all <;> omega
  · obtain ⟨t, u, s⟩ := c
    simp only [CardInv] at h
    simp only [CardInv, SessionCard.return_session, SessionCard.sessions_remaining,
      SessionCard.save]
    cases s <;> split <;> split <;> simp_all <;> omega

/-- Witness for C6 at the concrete card (10 sessions, 10 used, completed). -/
theorem sessionCard_completed_iff_exhausted_preserved_witness :
    CardInv (SessionCard.save ⟨10, 10, CardStatus.completed⟩)
      ∧ (∀ c', SessionCard.use_session ⟨10, 10, CardStatus.completed⟩ = some c' → CardInv c')
      ∧ CardInv (SessionCard.return_session ⟨10, 10, CardStatus.completed⟩) :=
  sessionCard_completed_iff_exhausted_preserved ⟨10, 10, CardStatus.completed⟩
    (by simp [CardInv])

/-- C7: on an active card with a session remaining, `use_session` succeeds,
debits one session, and the `return` handler then restores the card exactly
(sessions restored, and a card flipped to completed flips back to active). -/
theorem use_then_return_restores_card
    (c : SessionCard) (h1 : c.status = CardStatus.active)
    (h2 : 0 < c.sessions_remaining) :
    ∃ c', c.use_session = some c'
      ∧ c'.sessions_used = c.sessions_used + 1
      ∧ c'.return_session = c := by
  obtain ⟨t, u, s⟩ := c
  subst h1
  simp only [SessionCard.sessions_remaining] at h2
  refine ⟨SessionCard.save
      (if t - (u + 1) = 0 then ⟨t, u + 1, CardStatus.completed⟩
       else ⟨t, u + 1, CardStatus.active⟩), ?_, ?_, ?_⟩ <;>
    simp only [SessionCard.use_session, SessionCard.is_valid, SessionCard.return_session,
      SessionCard.sessions_remaining, SessionCard.save] <;>
    split_ifs <;>
    simp_all [SessionCard.mk.injEq] <;>
    omega

/-- Witness for C7: scenario C of the specification, a 10-session card with 9
used: `use` yields 10 used / completed, `return` yields 9 used / active. -/
theorem use_then_return_restores_card_witness :
    ∃ c', SessionCard.use_session ⟨10, 9, CardStatus.active⟩ = some c'
      ∧ c'.sessions_used = 9 + 1
      ∧ c'.return_session = ⟨10, 9, CardStatus.active⟩ :=
  use_then_return_restores_card ⟨10, 9, CardStatus.active⟩ rfl (by decide)

/-! ## Attendance records and card-usage signals: `bookings/models.py` -/

/-- The fields of `bookings/models.py` `SessionAttendance` that the card-usage
signal handlers, the capacity count queries and the cancellation view read.  The linked `SessionCard` row
is carried inline (`session_card`), standing for the referenced row of the
card store; `session_date` is a date-time in minutes. -/
structure SessionAttendance where
  session_date : Int
  title : String
  size_category : Option String
  session_card : Option SessionCard
  card_session_used : Bool
deriving DecidableEq, Repr

/-- `SessionAttendance.is_in_past`: `session_date < timezone.now()`. -/
def SessionAttendance.is_in_past (now : Int) (a : SessionAttendance) : Prop :=
  a.session_date < now

instance (now : Int) (a : SessionAttendance) : Decidable (a.is_in_past now) := by
  unfold SessionAttendance.is_in_past
  infer_instance

/-- The inline card charge performed by the `post_save` handler
`use_card_session_on_save`: `sessions_used += 1`, auto-complete when all
sessions are used, then `card.save()`. -/
def chargeCard (card : SessionCard) : SessionCard :=
  let c1 := { card with sessions_used := card.sessions_used + 1 }
  let c2 :=
    if c1.total_sessions ≤ c1.sessions_used then { c1 with status := CardStatus.completed }
    else c1
  c2.save

/-- The `post_save` handler `use_card_session_on_save` in `bookings/models.py`,
as a transformer of the saved attendance row (the row also carries its linked
card).  It charges only when a card is linked, the `card_session_used` flag is
not set, the session date is already in the past, and the card is active with
sessions remaining; on a charge it also persists `card_session_used = True`. -/
def use_card_session_on_save (now : Int) (a : SessionAttendance) : SessionAttendance :=
  match a.session_card with
  | some card =>
    if a.card_session_used then a
    else if ¬ a.is_in_past now then a
    else if card.status = CardStatus.active ∧ 0 < card.sessions_remaining then
      { a with session_card := some (chargeCard card), card_session_used := true }
    else a
  | none => a

/-- The `pre_delete` handler `return_card_session_on_delete` in
`bookings/models.py`: the state of the linked card row after the attendance is
deleted.  The card is credited back exactly when a card is linked and the
`card_session_used` flag is set. -/
def return_card_session_on_delete (a : SessionAttendance) : Option SessionCard :=
  match a.session_card with
  | some card =>
    if a.card_session_used then some card.return_session else some card
  | none => none

/-- A sequence of `save` operations on one attendance row, each firing the
`post_save` signal at its own evaluation time. -/
def applySaves (nows : List Int) (a : SessionAttendance) : SessionAttendance :=
  nows.foldl (fun a n => use_card_session_on_save n a) a

/-- The `sessions_used` counter of the linked card (0 when no card is linked). -/
def usedOf (a : SessionAttendance) : Nat :=
  match a.session_card with
  | some c => c.sessions_used
  | none => 0

/-- Once the `card_session_used` flag is persisted, the save signal never
touches the row (or its card) again. -/
theorem use_card_flag_freezes (now : Int) (a : SessionAttendance)
    (h : a.card_session_used = true) :
    use_card_session_on_save now a = a := by
  unfold use_card_session_on_save
  cases hc : a.session_card <;> simp [h]

/-- Each save step either leaves the row exactly as it started, or has
performed the single debit (flag set, counter one higher than at the start). -/
theorem use_card_step_invariant (a0 a : SessionAttendance) (now : Int)
    (h0 : a0.card_session_used = false)
    (h : a = a0 ∨ (a.card_session_used = true ∧ usedOf a = usedOf a0 + 1)) :
    use_card_session_on_save now a = a0
      ∨ ((use_card_session_on_save now a).card_session_used = true
          ∧ usedOf (use_card_session_on_save now a) = usedOf a0 + 1) := by
  rcases h with rfl | ⟨hflag, hused⟩
  · unfold use_card_session_on_save
    cases hc : a.session_card with
    | none => exact Or.inl rfl
    | some card =>
      simp only [h0, if_false, Bool.false_eq_true]
      split
      · exact Or.inl rfl
      · split
        · right
          refine ⟨rfl, ?_⟩
          simp [usedOf, hc, chargeCard, SessionCard.save]
          split <;> rfl
        · exact Or.inl rfl
  · rw [use_card_flag_freezes now a hflag]
    exact Or.inr ⟨hflag, hused⟩

/-- C10: starting from an uncharged attendance row, any sequence of saves (at
any evaluation times) debits the linked card at most once in total — the final
state is either untouched or has the flag set with exactly one extra session
used — and a save evaluated while the session date is not yet past never
changes anything. -/
theorem card_charged_at_most_once (a : SessionAttendance) (nows : List Int)
    (h : a.card_session_used = false) :
    (applySaves nows a = a
      ∨ ((applySaves nows a).card_session_used = true
          ∧ usedOf (applySaves nows a) = usedOf a + 1))
    ∧ (∀ now : Int, now ≤ a.session_date → use_card_session_on_save now a = a) := by
  constructor
  · suffices hgen : ∀ (l : List Int) (b : SessionAttendance),
        (b = a ∨ (b.card_session_used = true ∧ usedOf b = usedOf a + 1)) →
        (applySaves l b = a
          ∨ ((applySaves l b).card_session_used = true
              ∧ usedOf (applySaves l b) = usedOf a + 1)) by
      have := hgen nows a (Or.inl rfl)
      simpa [applySaves] using this
    intro l
    induction l with
    | nil =>
      intro b hb
      simpa [applySaves] using hb
    | cons n rest ih =>
      intro b hb
      have hstep := use_card_step_invariant a b n h hb
      have : applySaves (n :: rest) b = applySaves rest (use_card_session_on_save n b) := rfl
      rw [this]
      apply ih
      rcases hstep with h1 | h2
      · exact Or.inl h1
      · exact Or.inr h2
  · intro now hnow
    unfold use_card_session_on_save
    cases hc : a.session_card <;>
      simp [SessionAttendance.is_in_past, h]
    omega

/-- Witness for C10 at a concrete uncharged row: a past-dated attendance
carrying a fresh 10-session card, saved three times. -/
theorem card_charged_at_most_once_witness :
    (applySaves [5, 6, 7] ⟨0, "Kangoo Jumping Sessie", some "M", some ⟨10, 0, CardStatus.active⟩, false⟩ =
        ⟨0, "Kangoo Jumping Sessie", some "M", some ⟨10, 0, CardStatus.active⟩, false⟩
      ∨ ((applySaves [5, 6, 7] ⟨0, "Kangoo Jumping Sessie", some "M", some ⟨10, 0, CardStatus.active⟩, false⟩).card_session_used = true
          ∧ usedOf (applySaves [5, 6, 7] ⟨0, "Kangoo Jumping Sessie", some "M", some ⟨10, 0, CardStatus.active⟩, false⟩) =
              usedOf ⟨0, "Kangoo Jumping Sessie", some "M", some ⟨10, 0, CardStatus.active⟩, false⟩ + 1))
    ∧ (∀ now : Int, now ≤ (0 : Int) →
        use_card_session_on_save now ⟨0, "Kangoo Jumping Sessie", some "M", some ⟨10, 0, CardStatus.active⟩, false⟩ =
          ⟨0, "Kangoo Jumping Sessie", some "M", some ⟨10, 0, CardStatus.active⟩, false⟩) :=
  card_charged_at_most_once ⟨0, "Kangoo Jumping Sessie", some "M", some ⟨10, 0, CardStatus.active⟩, false⟩ [5, 6, 7] rfl

/-! ## Equipment pool: `equipment/models.py` and the spring-type filter of
`equipment/assignment.py` -/

/-- `Equipment.STATUS_CHOICES`. -/
inductive EquipStatus where
  | available
  | maintenance
  | broken
deriving DecidableEq, Repr

/-- The columns of `equipment/models.py` `Equipment` consulted by the capacity
queries: `status`, `size`, and the name of the linked `SpringType` row (if
any). -/
structure Equipment where
  status : EquipStatus
  size : String
  spring_name : Option String
deriving DecidableEq, Repr

/-- `SPRING_TYPE_NAMES` lookup of `_resolve_spring_type_name`:
`key.lower()` mapped through the dict, defaulting to the key itself. -/
def resolve_spring_type_name (key : String) : String :=
  if key.toLower = "standard" then "Standaard"
  else if key.toLower = "standaard" then "Standaard"
  else if key.toLower = "hd" then "HD"
  else key

/-- The `spring_type__name__iexact` filter produced by `_spring_filter`:
a case-insensitive match of the linked spring type's name against the resolved
key.  Equipment without a linked spring type never matches. -/
def springFilterMatch (key : String) (e : Equipment) : Bool :=
  match e.spring_name with
  | some n => n.toLower == (resolve_spring_type_name key).toLower
  | none => false

/-- The equipment filter of `SessionSchedule.get_capacity_for_size`:
`status='available'`, `size=size_category`, plus the optional spring filter.
A `none` size category matches no row (`size` is a non-null column). -/
def equipmentMatches (size_category : Option String)
    (spring_type_key : Option String) (e : Equipment) : Bool :=
  (e.status == EquipStatus.available)
    && (match size_category with
        | some sc => e.size == sc
        | none => false)
    && (match spring_type_key with
        | some key => springFilterMatch key e
        | none => true)

/-! ## Session schedules: `bookings/schedule_models.py` (`SessionSchedule`) -/

/-- The fields of `SessionSchedule` that the occurrence expander, the booking
window gate and the capacity calculator read.  `weekday` is 0–6 (Monday = 0),
`start_date`/`end_date` are dates in days, the two window parameters are the
integers of `booking_opens_days_before` / `booking_closes_hours_before`. -/
structure SessionSchedule where
  title : String
  weekday : Int
  start_date : Int
  end_date : Option Int
  booking_opens_days_before : Int
  booking_closes_hours_before : Int
  max_capacity : Option Nat
  is_active : Bool
deriving DecidableEq, Repr

/-- `SessionSchedule.get_capacity_for_size`: count of equipment rows with
`status='available'` and the given size (and optionally the spring filter). -/
def SessionSchedule.get_capacity_for_size (_s : SessionSchedule)
    (equipment : List Equipment) (size_category : Option String)
    (spring_type_key : Option String) : Nat :=
  (equipment.filter (equipmentMatches size_category spring_type_key)).length

/-- The booking count of `get_available_capacity_for_size`: attendance rows
with the occurrence's date-time, the schedule's title and the given size
category (`None` matches rows whose size category is null). -/
def bookedCountForSize (atts : List SessionAttendance) (dt : Int)
    (title : String) (size_category : Option String) : Nat :=
  (atts.filter (fun a =>
    a.session_date == dt && a.title == title && a.size_category == size_category)).length

/-- The schedule-wide booking count used for the `max_capacity` cap:
attendance rows with the occurrence's date-time and the schedule's title. -/
def totalBookedCount (atts : List SessionAttendance) (dt : Int)
    (title : String) : Nat :=
  (atts.filter (fun a => a.session_date == dt && a.title == title)).length

/-- `SessionSchedule.get_available_capacity_for_size`: equipment capacity for
the size minus existing bookings, floored at zero (`Nat` subtraction), then
also capped by `max_capacity - total_booked` (floored at zero) when a
schedule-level cap is configured. -/
def SessionSchedule.get_available_capacity_for_size (s : SessionSchedule)
    (equipment : List Equipment) (atts : List SessionAttendance) (dt : Int)
    (size_category : Option String) (spring_type_key : Option String) : Nat :=
  let total_capacity := s.get_capacity_for_size equipment size_category spring_type_key
  let booked_count := bookedCountForSize atts dt s.title size_category
  let available := total_capacity - booked_count
  match s.max_capacity with
  | some m =>
    let total_booked := totalBookedCount atts dt s.title
    let total_remaining := m - total_booked
    min available total_remaining
  | none => available

/-- `SessionSchedule.get_next_occurrence`, on dates as day numbers: advance to
the next strict occurrence of the weekday, clamp to `start_date` when the
result precedes it, and return `None` when `end_date` is set and exceeded.
(The Python method finally combines the date with `start_time`; the date fully
determines the result, so the embedding returns the date.) -/
def SessionSchedule.get_next_occurrence (s : SessionSchedule)
    (from_date : Int) : Option Int :=
  let days_ahead := s.weekday - from_date % 7
  let days_ahead := if days_ahead ≤ 0 then days_ahead + 7 else days_ahead
  let next_date := from_date + days_ahead
  let next_date := if next_date < s.start_date then s.start_date else next_date
  match s.end_date with
  | some e => if e < next_date then none else some next_date
  | none => some next_date

/-- `SessionSchedule.is_booking_open`, on date-times in minutes: false when the
occurrence is not strictly in the future, when `now` precedes
`occurrence - opens_days_before`, or when `now` exceeds
`occurrence - closes_hours_before`; true otherwise. -/
def SessionSchedule.is_booking_open (s : SessionSchedule)
    (now session_datetime : Int) : Bool :=
  if session_datetime ≤ now then false
  else if now < session_datetime - s.booking_opens_days_before * 1440 then false
  else if session_datetime - s.booking_closes_hours_before * 60 < now then false
  else true

/-- C3: the booking window gate passes iff the occurrence is strictly in the
future, `now` is at or after the inclusive opening boundary
(`occurrence - opens_days_before`), and at or before the inclusive closing
boundary (`occurrence - closes_hours_before`).  The gate is a pure function of
its inputs. -/
theorem is_booking_open_iff (s : SessionSchedule) (now session_datetime : Int) :
    s.is_booking_open now session_datetime = true ↔
      (now < session_datetime
        ∧ session_datetime - s.booking_opens_days_before * 1440 ≤ now
        ∧ now ≤ session_datetime - s.booking_closes_hours_before * 60) := by
  unfold SessionSchedule.is_booking_open
  split_ifs <;> simp_all <;> omega

/-- C1: per-category availability is the count of available equipment in the
category minus the bookings for the occurrence and category, floored at zero,
and further capped by `max_capacity` minus the occurrence's total bookings
(floored at zero) when the schedule-level cap is set; equipment whose status
is `maintenance` or `broken` never contributes to any availability count. -/
theorem per_category_availability_formula (s : SessionSchedule)
    (equipment : List Equipment) (atts : List SessionAttendance) (dt : Int)
    (size_category spring_type_key : Option String) :
    ((s.get_available_capacity_for_size equipment atts dt size_category spring_type_key : Int) =
      (let A : Int := s.get_capacity_for_size equipment size_category spring_type_key
       let B : Int := bookedCountForSize atts dt s.title size_category
       let base := max 0 (A - B)
       match s.max_capacity with
       | some m => min base (max 0 ((m : Int) - totalBookedCount atts dt s.title))
       | none => base))
    ∧ ∀ e : Equipment, e.status ≠ EquipStatus.available →
        s.get_available_capacity_for_size (e :: equipment) atts dt size_category
            spring_type_key =
          s.get_available_capacity_for_size equipment atts dt size_category
            spring_type_key := by
  constructor
  · unfold SessionSchedule.get_available_capacity_for_size
    cases hm : s.max_capacity <;> simp only [hm] <;> push_cast <;> omega
  · intro e he
    have hmatch : equipmentMatches size_category spring_type_key e = false := by
      unfold equipmentMatches
      have : (e.status == EquipStatus.available) = false := by
        simpa using he
      simp [this]
    unfold SessionSchedule.get_available_capacity_for_size
      SessionSchedule.get_capacity_for_size
    rw [List.filter_cons_of_neg (by simp [hmatch])]

/-- Witness for C1: five available M boots, one broken M boot, three M
bookings, schedule cap 6 with four total bookings. -/
theorem per_category_availability_formula_witness :
    (((⟨"T", 0, 0, none, 14, 2, some 6, true⟩ : SessionSchedule).get_available_capacity_for_size
        [⟨EquipStatus.available, "M", none⟩, ⟨EquipStatus.available, "M", none⟩,
         ⟨EquipStatus.available, "M", none⟩, ⟨EquipStatus.available, "M", none⟩,
         ⟨EquipStatus.available, "M", none⟩]
        [⟨100, "T", some "M", none, false⟩, ⟨100, "T", some "M", none, false⟩,
         ⟨100, "T", some "M", none, false⟩, ⟨100, "T", some "L", none, false⟩]
        100 (some "M") none : Int) =
      (let A : Int := (⟨"T", 0, 0, none, 14, 2, some 6, true⟩ : SessionSchedule).get_capacity_for_size
        [⟨EquipStatus.available, "M", none⟩, ⟨EquipStatus.available, "M", none⟩,
         ⟨EquipStatus.available, "M", none⟩, ⟨EquipStatus.available, "M", none⟩,
         ⟨EquipStatus.available, "M", none⟩] (some "M") none
       let B : Int := bookedCountForSize
        [⟨100, "T", some "M", none, false⟩, ⟨100, "T", some "M", none, false⟩,
         ⟨100, "T", some "M", none, false⟩, ⟨100, "T", some "L", none, false⟩] 100 "T" (some "M")
       let base := max 0 (A - B)
       match (some 6 : Option Nat) with
       | some m => min base (max 0 ((m : Int) - totalBookedCount
          [⟨100, "T", some "M", none, false⟩, ⟨100, "T", some "M", none, false⟩,
           ⟨100, "T", some "M", none, false⟩, ⟨100, "T", some "L", none, false⟩] 100 "T"))
       | none => base))
    ∧ ∀ e : Equipment, e.status ≠ EquipStatus.available →
        (⟨"T", 0, 0, none, 14, 2, some 6, true⟩ : SessionSchedule).get_available_capacity_for_size
            (e :: [⟨EquipStatus.available, "M", none⟩, ⟨EquipStatus.available, "M", none⟩,
              ⟨EquipStatus.available, "M", none⟩, ⟨EquipStatus.available, "M", none⟩,
              ⟨EquipStatus.available, "M", none⟩])
            [⟨100, "T", some "M", none, false⟩, ⟨100, "T", some "M", none, false⟩,
             ⟨100, "T", some "M", none, false⟩, ⟨100, "T", some "L", none, false⟩]
            100 (some "M") none =
          (⟨"T", 0, 0, none, 14, 2, some 6, true⟩ : SessionSchedule).get_available_capacity_for_size
            [⟨EquipStatus.available, "M", none⟩, ⟨EquipStatus.available, "M", none⟩,
             ⟨EquipStatus.available, "M", none⟩, ⟨EquipStatus.available, "M", none⟩,
             ⟨EquipStatus.available, "M", none⟩]
            [⟨100, "T", some "M", none, false⟩, ⟨100, "T", some "M", none, false⟩,
             ⟨100, "T", some "M", none, false⟩, ⟨100, "T", some "L", none, false⟩]
            100 (some "M") none :=
  per_category_availability_formula _ _ _ _ _ _

/-- C2 counterexample: a Monday schedule (`weekday = 0`) whose `start_date` is
day 9 (a Wednesday), queried from day 0.  The naive next Monday is day 7,
which precedes `start_date`, and the code returns `start_date` itself: day 9,
which does not fall on the schedule's weekday.  This refutes both "the result
falls on the schedule's weekday" and "the result is re-derived to the correct
weekday alignment rather than being `start_date` itself". -/
theorem get_next_occurrence_counterexample :
    (⟨"T", 0, 9, none, 14, 2, none, true⟩ : SessionSchedule).get_next_occurrence 0 = some 9
      ∧ (9 : Int) % 7 ≠ (⟨"T", 0, 9, none, 14, 2, none, true⟩ : SessionSchedule).weekday
      ∧ (⟨"T", 0, 9, none, 14, 2, none, true⟩ : SessionSchedule).start_date = 9 := by
  refine ⟨?_, by decide, rfl⟩
  rfl

/-- C2 (amended): the expander computes the strictly-next date on the
schedule's weekday after the reference date (between 1 and 7 days ahead, never
the reference date itself); when that date precedes `start_date` the result is
clamped to `start_date` itself, without re-deriving weekday alignment; `None`
is returned exactly when `end_date` is set and the resulting date falls after
it. -/
theorem get_next_occurrence_amended (s : SessionSchedule) (from_date : Int)
    (hw : 0 ≤ s.weekday ∧ s.weekday < 7) :
    ∃ naive : Int,
      from_date < naive ∧ naive ≤ from_date + 7 ∧ naive % 7 = s.weekday
        ∧ s.get_next_occurrence from_date =
            (match s.end_date with
             | some e =>
               if e < max naive s.start_date then none else some (max naive s.start_date)
             | none => some (max naive s.start_date)) := by
  obtain ⟨hw0, hw7⟩ := hw
  refine ⟨from_date +
      (if s.weekday - from_date % 7 ≤ 0 then s.weekday - from_date % 7 + 7
       else s.weekday - from_date % 7), ?_, ?_, ?_, ?_⟩
  · split <;> omega
  · split <;> omega
  · split <;> omega
  · have hclamp : ∀ n : Int, (if n < s.start_date then s.start_date else n) = max n s.start_date := by
      intro n
      split <;> omega
    simp only [SessionSchedule.get_next_occurrence]
    rw [hclamp]

/-- Witness for C2 (amended) at the counterexample schedule and reference
date 0: the naive Monday is day 7, and the result is the clamped day 9. -/
theorem get_next_occurrence_amended_witness :
    ∃ naive : Int,
      (0 : Int) < naive ∧ naive ≤ (0 : Int) + 7
        ∧ naive % 7 = (⟨"T", 0, 9, none, 14, 2, none, true⟩ : SessionSchedule).weekday
        ∧ (⟨"T", 0, 9, none, 14, 2, none, true⟩ : SessionSchedule).get_next_occurrence 0 =
            (match (⟨"T", 0, 9, none, 14, 2, none, true⟩ : SessionSchedule).end_date with
             | some e =>
               if e < max naive (⟨"T", 0, 9, none, 14, 2, none, true⟩ : SessionSchedule).start_date
               then none
               else some (max naive (⟨"T", 0, 9, none, 14, 2, none, true⟩ : SessionSchedule).start_date)
             | none =>
               some (max naive (⟨"T", 0, 9, none, 14, 2, none, true⟩ : SessionSchedule).start_date)) :=
  get_next_occurrence_amended ⟨"T", 0, 9, none, 14, 2, none, true⟩ 0 ⟨by decide, by decide⟩

/-! ## Booking orchestration: `accounts/views.py` (`book_session`,
`cancel_booking`) -/

/-- Outcomes of the `cancel_booking` view. -/
inductive CancelOutcome where
  | notFound
  | pastRejected
  | cancelled
deriving DecidableEq, Repr

/-- The `cancel_booking` view of `accounts/views.py` together with the
`pre_delete` signal fired by `attendance.delete()`.  Input: the looked-up
attendance row (`none` when no row matches the id and owner).  Output: the
outcome, the surviving attendance row, and the state of the linked card row
after the operation (`none` when no card is linked or no row was found). -/
def cancel_booking (now : Int) (att : Option SessionAttendance) :
    CancelOutcome × Option SessionAttendance × Option SessionCard :=
  match att with
  | none => (CancelOutcome.notFound, none, none)
  | some a =>
    if a.session_date ≤ now then
      (CancelOutcome.pastRejected, some a, a.session_card)
    else
      (CancelOutcome.cancelled, none, return_card_session_on_delete a)

/-- C8: cancelling a booking whose occurrence is already past is rejected and
leaves the booking row and the linked card unchanged; a strictly-future
booking is deleted and its card is credited back exactly when the
credit-consumed flag is set (a booking without the flag, or without a card,
never credits), and a repeated cancel after a successful one finds nothing and
touches no card. -/
theorem cancel_booking_spec (now : Int) (a : SessionAttendance) :
    ((cancel_booking now (some a)).1 = CancelOutcome.pastRejected ↔ a.session_date ≤ now)
      ∧ (a.session_date ≤ now →
          cancel_booking now (some a) = (CancelOutcome.pastRejected, some a, a.session_card))
      ∧ (now < a.session_date →
          cancel_booking now (some a) =
            (CancelOutcome.cancelled, none, return_card_session_on_delete a))
      ∧ (now < a.session_date → a.card_session_used = false →
          (cancel_booking now (some a)).2.2 = a.session_card)
      ∧ (now < a.session_date → a.card_session_used = true →
          ∀ c, a.session_card = some c →
            (cancel_booking now (some a)).2.2 = some c.return_session)
      ∧ (now < a.session_date →
          cancel_booking now (cancel_booking now (some a)).2.1 =
            (CancelOutcome.notFound, none, none)) := by
  simp only [cancel_booking]
  by_cases h : a.session_date ≤ now
  · rw [if_pos h]
    refine ⟨by simp [h], fun _ => rfl, ?_, ?_, ?_, ?_⟩ <;> intro hlt <;> omega
  · rw [if_neg h]
    refine ⟨by simp [h], fun hle => absurd hle h, fun _ => rfl, ?_, ?_, fun _ => rfl⟩
    · intro _ hflag
      unfold return_card_session_on_delete
      cases hc : a.session_card <;> simp [hflag]
    · intro _ hflag c hc
      unfold return_card_session_on_delete
      rw [hc]
      simp [hflag]

/-- Witness for C8 at a concrete future booking with the flag set, linked to a
10-session card with 3 used: the cancel deletes the booking and credits the
card back once, and a repeated cancel finds nothing. -/
theorem cancel_booking_spec_witness :
    cancel_booking 0 (some ⟨60, "T", some "M", some ⟨10, 3, CardStatus.active⟩, true⟩) =
        (CancelOutcome.cancelled, none,
          some (SessionCard.return_session ⟨10, 3, CardStatus.active⟩))
      ∧ cancel_booking 0
            (cancel_booking 0
              (some ⟨60, "T", some "M", some ⟨10, 3, CardStatus.active⟩, true⟩)).2.1 =
          (CancelOutcome.notFound, none, none) := by
  have h := cancel_booking_spec 0 ⟨60, "T", some "M", some ⟨10, 3, CardStatus.active⟩, true⟩
  refine ⟨?_, h.2.2.2.2.2 (by decide)⟩
  rw [h.2.2.1 (by decide)]
  rfl

/-- A save evaluated while the session date is not yet past never changes the
row or its card (`use_card_session_on_save` returns before charging). -/
theorem use_card_not_past_noop (now : Int) (a : SessionAttendance)
    (h : ¬ a.is_in_past now) :
    use_card_session_on_save now a = a := by
  unfold use_card_session_on_save
  cases hc : a.session_card <;> simp [h]

/-- Outcomes of the `book_session` view. -/
inductive BookOutcome where
  | notOpen
  | full
  | duplicate
  | booked (att : SessionAttendance)
deriving DecidableEq, Repr

/-- The decision chain of the `book_session` view of `accounts/views.py`:
reject when the booking window gate fails, when per-size availability is not
positive, or when an identical booking already exists; otherwise create the
attendance row (which fires the `post_save` card signal) with the schedule's
title, the member's size category, the optionally selected card, and the
`card_session_used` flag initially false. -/
def book_session (now : Int) (s : SessionSchedule) (equipment : List Equipment)
    (atts : List SessionAttendance) (session_datetime : Int)
    (size_category : Option String) (card : Option SessionCard)
    (already_booked : Bool) : BookOutcome :=
  if ¬ (s.is_booking_open now session_datetime = true) then BookOutcome.notOpen
  else if s.get_available_capacity_for_size equipment atts session_datetime
      size_category none ≤ 0 then BookOutcome.full
  else if already_booked then BookOutcome.duplicate
  else
    BookOutcome.booked (use_card_session_on_save now
      ⟨session_datetime, s.title, size_category, card, false⟩)

/-- C9: creating a booking never debits the attached session card: every
attendance row created by `book_session` still carries the card exactly as it
was handed in, with the credit-consumed flag unset (the booking window gate
guarantees a strictly-future occurrence, and the save signal never charges a
future session). -/
theorem booking_creation_never_debits (now : Int) (s : SessionSchedule)
    (equipment : List Equipment) (atts : List SessionAttendance)
    (session_datetime : Int) (size_category : Option String)
    (card : Option SessionCard) (already_booked : Bool) :
    ∀ att, book_session now s equipment atts session_datetime size_category card
        already_booked = BookOutcome.booked att →
      att.session_card = card ∧ att.card_session_used = false
        ∧ att.session_date = session_datetime := by
  intro att h
  unfold book_session at h
  split at h
  · cases h
  split at h
  · cases h
  split at h
  · cases h
  · rename_i hopen _ _
    injection h with h
    subst h
    have hopen' : s.is_booking_open now session_datetime = true := by
      by_contra hcon
      exact hopen hcon
    have hfut : now < session_datetime :=
      ((is_booking_open_iff s now session_datetime).mp hopen').1
    rw [use_card_not_past_noop now _ (by
      simp only [SessionAttendance.is_in_past]
      omega)]
    exact ⟨rfl, rfl, rfl⟩

/-- Witness for C9: a successful concrete booking (open window, one available
boot, no duplicate) whose created row still carries the untouched card. -/
theorem booking_creation_never_debits_witness :
    (⟨200, "T", some "M", some ⟨10, 0, CardStatus.active⟩, false⟩ : SessionAttendance).session_card =
        some ⟨10, 0, CardStatus.active⟩
      ∧ (⟨200, "T", some "M", some ⟨10, 0, CardStatus.active⟩, false⟩ : SessionAttendance).card_session_used =
          false
      ∧ (⟨200, "T", some "M", some ⟨10, 0, CardStatus.active⟩, false⟩ : SessionAttendance).session_date =
          200 :=
  booking_creation_never_debits 0 ⟨"T", 0, 0, none, 14, 2, none, true⟩
    [⟨EquipStatus.available, "M", none⟩] [] 200 (some "M")
    (some ⟨10, 0, CardStatus.active⟩) false
    ⟨200, "T", some "M", some ⟨10, 0, CardStatus.active⟩, false⟩ (by decide)

/-! ## Category resolution: `equipment/assignment.py`, `equipment/models.py`,
`members/models.py` -/

/-- `equipment/models.py` `SizeType`: an admin-managed shoe-size class with an
optional inclusive range. -/
structure SizeType where
  name : String
  min_shoe_size : Option Int
  max_shoe_size : Option Int
  is_active : Bool
deriving DecidableEq, Repr

/-- `equipment/models.py` `SpringType`: an admin-managed spring class with an
optional maximum supported weight (`Decimal`, modelled as a rational). -/
structure SpringType where
  name : String
  max_weight : Option ℚ
  is_active : Bool
deriving DecidableEq, Repr

/-- `equipment/models.py` `EquipmentCategory`: a unique name, one `SizeType`,
one `SpringType`, an optional shell type (informational), and an active flag. -/
structure EquipmentCategory where
  name : String
  size_type : SizeType
  spring_type : SpringType
  shell_type : Option String
  is_active : Bool
deriving DecidableEq, Repr

/-- The fields of `members/models.py` `Member` read by the category resolver.
`members/models.py` declares `shoe_size` (a string; modelled as its parse
result) and `override_category`; the weight comes from the linked
`accounts.UserProfile`.  The `override_size_type` and `override_spring_type`
attributes are read by `equipment/assignment.py` although no such columns
exist on the `Member` model in `members/models.py` — they are included here so
that the resolver's branches can be embedded as written (see C4). -/
structure Member where
  shoe_size : Option Int
  weight : Option ℚ
  override_category : Option EquipmentCategory
  override_size_type : Option SizeType
  override_spring_type : Option SpringType
deriving DecidableEq, Repr

/-- A Django `queryset.first()`: the least element of the filtered rows under
the queryset's ordering, taking the earliest row on ties. -/
def firstByOrd {α : Type} (lt : α → α → Bool) : List α → Option α
  | [] => none
  | x :: xs =>
    match firstByOrd lt xs with
    | none => some x
    | some y => if lt y x then some y else some x

/-- Strict comparison of nullable integers with SQL null-first ascending
ordering. -/
def optIntLt : Option Int → Option Int → Bool
  | none, some _ => true
  | some a, some b => decide (a < b)
  | _, _ => false

/-- Strict comparison of nullable `Decimal`s with SQL null-first ascending
ordering. -/
def optRatLt : Option ℚ → Option ℚ → Bool
  | none, some _ => true
  | some a, some b => decide (a < b)
  | _, _ => false

/-- The Meta ordering `['min_shoe_size', 'name']` of `SizeType`. -/
def sizeTypeLt (a b : SizeType) : Bool :=
  optIntLt a.min_shoe_size b.min_shoe_size
    || (a.min_shoe_size == b.min_shoe_size && decide (a.name < b.name))

/-- The Meta ordering `['name']` of `SpringType`. -/
def springNameLt (a b : SpringType) : Bool :=
  decide (a.name < b.name)

/-- The explicit `order_by('max_weight')` (ascending) on `SpringType`. -/
def springAscLt (a b : SpringType) : Bool :=
  optRatLt a.max_weight b.max_weight

/-- The explicit `order_by('-max_weight')` (descending) on `SpringType`. -/
def springDescLt (a b : SpringType) : Bool :=
  optRatLt b.max_weight a.max_weight

/-- The Meta ordering `['name']` of `EquipmentCategory`. -/
def categoryNameLt (a b : EquipmentCategory) : Bool :=
  decide (a.name < b.name)

/-- The dynamic `SizeType` filter of `get_size_category_from_shoe_size`:
active, both bounds defined, and the parsed size inside the inclusive range. -/
def sizeTypeMatches (size : Int) (t : SizeType) : Bool :=
  t.is_active
    && (match t.min_shoe_size, t.max_shoe_size with
        | some mn, some mx => decide (mn ≤ size) && decide (size ≤ mx)
        | _, _ => false)

/-- `get_size_category_from_shoe_size` of `equipment/assignment.py`.  The
string input is modelled by its parse result (`none` for an empty or
unparseable string).  A matching active `SizeType` wins; otherwise the
hardcoded mapping (≤36 → S, ≤41 → M, ≤46 → L, else XL) applies. -/
def get_size_category_from_shoe_size (sizeTypes : List SizeType)
    (shoe_size : Option Int) : Option String :=
  match shoe_size with
  | none => none
  | some size =>
    match firstByOrd sizeTypeLt (sizeTypes.filter (sizeTypeMatches size)) with
    | some t => some t.name
    | none =>
      some (if size ≤ 36 then "S"
            else if size ≤ 41 then "M"
            else if size ≤ 46 then "L"
            else "XL")

/-- `get_spring_type_from_weight` of `equipment/assignment.py`.  A falsy
weight (missing or zero) defaults to `'standard'`; otherwise the lightest
active spring type whose defined maximum covers the weight wins, then the
active type without a maximum, then the active type with the highest maximum,
then the hardcoded 80 kg threshold. -/
def get_spring_type_from_weight (springs : List SpringType)
    (weight : Option ℚ) : String :=
  match weight with
  | none => "standard"
  | some w =>
    if w = 0 then "standard"
    else
      match firstByOrd springAscLt (springs.filter (fun s =>
          s.is_active && (match s.max_weight with
            | some m => decide (w ≤ m)
            | none => false))) with
      | some s => s.name.toLower
      | none =>
        match firstByOrd springNameLt (springs.filter (fun s =>
            s.is_active && s.max_weight == none)) with
        | some s => s.name.toLower
        | none =>
          match firstByOrd springDescLt (springs.filter (fun s => s.is_active)) with
          | some s => s.name.toLower
          | none => if 80 ≤ w then "hd" else "standard"

/-- `get_member_equipment_requirements`: the effective size category and
spring type key for a member, honouring the per-attribute
`override_size_type` / `override_spring_type` branches of the source. -/
def get_member_equipment_requirements (sizeTypes : List SizeType)
    (springs : List SpringType) (m : Member) : Option String × String :=
  let size_category :=
    match m.override_size_type with
    | some t => some t.name
    | none => get_size_category_from_shoe_size sizeTypes m.shoe_size
  let spring_type :=
    match m.override_spring_type with
    | some t => t.name.toLower
    | none => get_spring_type_from_weight springs m.weight
  (size_category, spring_type)

/-- `get_member_category` of `equipment/assignment.py`: resolve the size
category and spring key, look up the `SizeType` and `SpringType` rows, and
return the first active `EquipmentCategory` with that pair. -/
def get_member_category (sizeTypes : List SizeType) (springs : List SpringType)
    (categories : List EquipmentCategory) (m : Member) :
    Option EquipmentCategory :=
  let req := get_member_equipment_requirements sizeTypes springs m
  match req.1 with
  | none => none
  | some sc =>
    let size_type_obj :=
      match m.override_size_type with
      | some t => some t
      | none =>
        firstByOrd sizeTypeLt (sizeTypes.filter (fun t => t.is_active && t.name == sc))
    match size_type_obj with
    | none => none
    | some st =>
      let spring_name := resolve_spring_type_name req.2
      let spring_type_obj :=
        match m.override_spring_type with
        | some t => some t
        | none =>
          firstByOrd springNameLt (springs.filter (fun s =>
            s.is_active && s.name.toLower == spring_name.toLower))
      match spring_type_obj with
      | none => none
      | some sp =>
        firstByOrd categoryNameLt (categories.filter (fun c =>
          c.is_active && c.size_type == st && c.spring_type == sp))

/-- C4 (evaluation of the divergent code): `get_member_category` is completely
independent of the member's `override_category` field — the resolver never
reads it (its branches consult `override_size_type` / `override_spring_type`,
which are not columns of the `Member` model) — and at the failing input, a
member whose `override_category` is set but whose shoe size is missing, it
returns `none` instead of the override. -/
theorem get_member_category_ignores_override_category :
    (∀ (sizeTypes : List SizeType) (springs : List SpringType)
        (categories : List EquipmentCategory) (m : Member)
        (oc : Option EquipmentCategory),
      get_member_category sizeTypes springs categories
          { m with override_category := oc } =
        get_member_category sizeTypes springs categories m)
    ∧ get_member_category [] [] []
        ⟨none, none,
          some ⟨"Small groen", ⟨"S", some 32, some 36, true⟩,
            ⟨"Standaard", some 80, true⟩, none, true⟩,
          none, none⟩ = none := by
  constructor
  · intro sizeTypes springs categories m oc
    cases m
    rfl
  · rfl

/-- Unfolding equation of `firstByOrd` on a nonempty list. -/
theorem firstByOrd_cons {α : Type} (lt : α → α → Bool) (x : α) (xs : List α) :
    firstByOrd lt (x :: xs) =
      match firstByOrd lt xs with
      | none => some x
      | some y => if lt y x then some y else some x := rfl

/-- `firstByOrd` returns `none` exactly on the empty list. -/
theorem firstByOrd_eq_none {α : Type} (lt : α → α → Bool) (l : List α) :
    firstByOrd lt l = none ↔ l = [] := by
  induction l with
  | nil => simp [firstByOrd]
  | cons x xs ih =>
    rw [firstByOrd_cons]
    cases hx : firstByOrd lt xs
    · simp
    · rename_i y
      by_cases hlt : lt y x = true <;> simp [hlt]

/-- `firstByOrd` returns an element of the list. -/
theorem firstByOrd_mem {α : Type} (lt : α → α → Bool) (l : List α) (t : α)
    (h : firstByOrd lt l = some t) : t ∈ l := by
  induction l with
  | nil => cases h
  | cons x xs ih =>
    rw [firstByOrd_cons] at h
    cases hx : firstByOrd lt xs with
    | none =>
      rw [hx] at h
      have h' : some x = some t := h
      injection h' with h'
      subst h'
      exact List.mem_cons_self _ _
    | some y =>
      rw [hx] at h
      have h' : (if lt y x = true then some y else some x) = some t := h
      by_cases hlt : lt y x = true
      · rw [if_pos hlt] at h'
        injection h' with h'
        subst h'
        exact List.mem_cons_of_mem _ (ih hx)
      · rw [if_neg hlt] at h'
        injection h' with h'
        subst h'
        exact List.mem_cons_self _ _

/-- C5 counterexample: shoe size 38 with no configured size classes at all (so
no active class covers the parsed size) does not fail — the hardcoded fallback
returns `'M'`. -/
theorem get_size_category_counterexample :
    ¬ (get_size_category_from_shoe_size [] (some 38) = none)
      ∧ get_size_category_from_shoe_size [] (some 38) = some "M" := by
  refine ⟨?_, rfl⟩
  intro h
  cases h

/-- C5 (amended): resolution fails exactly on a missing or unparseable shoe
size; when some active class with both bounds set covers the parsed size, the
result is the name of such a class (inclusive-range containment); when no
active class covers it, the result is the hardcoded fallback mapping
(≤36 → S, ≤41 → M, ≤46 → L, else XL), never `none`. -/
theorem get_size_category_amended (sizeTypes : List SizeType)
    (shoe_size : Option Int) :
    (get_size_category_from_shoe_size sizeTypes shoe_size = none ↔ shoe_size = none)
      ∧ ∀ size : Int, shoe_size = some size →
          ((∃ t ∈ sizeTypes, sizeTypeMatches size t = true) →
            ∃ t ∈ sizeTypes, sizeTypeMatches size t = true
              ∧ get_size_category_from_shoe_size sizeTypes shoe_size = some t.name)
          ∧ ((∀ t ∈ sizeTypes, sizeTypeMatches size t = false) →
            get_size_category_from_shoe_size sizeTypes shoe_size =
              some (if size ≤ 36 then "S"
                    else if size ≤ 41 then "M"
                    else if size ≤ 46 then "L"
                    else "XL")) := by
  constructor
  · cases shoe_size with
    | none => simp [get_size_category_from_shoe_size]
    | some size =>
      simp only [get_size_category_from_shoe_size]
      cases hf : firstByOrd sizeTypeLt (sizeTypes.filter (sizeTypeMatches size)) <;> simp
  · intro size hs
    subst hs
    constructor
    · rintro ⟨t0, ht0, hm0⟩
      have hne : sizeTypes.filter (sizeTypeMatches size) ≠ [] := by
        intro hnil
        rw [List.filter_eq_nil] at hnil
        exact absurd hm0 (by simpa using hnil t0 ht0)
      cases hf : firstByOrd sizeTypeLt (sizeTypes.filter (sizeTypeMatches size)) with
      | none => exact absurd ((firstByOrd_eq_none _ _).mp hf) hne
      | some t =>
        have htmem := firstByOrd_mem _ _ _ hf
        rw [List.mem_filter] at htmem
        exact ⟨t, htmem.1, htmem.2,
          by simp [get_size_category_from_shoe_size, hf]⟩
    · intro hall
      have hnil : sizeTypes.filter (sizeTypeMatches size) = [] := by
        rw [List.filter_eq_nil]
        intro a ha
        simp [hall a ha]
      simp [get_size_category_from_shoe_size, hnil, firstByOrd]

/-- Witness for C5 (amended) at one active class L = 42–46 and shoe size 44. -/
theorem get_size_category_amended_witness :
    (get_size_category_from_shoe_size [⟨"L", some 42, some 46, true⟩] (some 44) = none
        ↔ (some 44 : Option Int) = none)
      ∧ ∀ size : Int, (some 44 : Option Int) = some size →
          ((∃ t ∈ [(⟨"L", some 42, some 46, true⟩ : SizeType)], sizeTypeMatches size t = true) →
            ∃ t ∈ [(⟨"L", some 42, some 46, true⟩ : SizeType)], sizeTypeMatches size t = true
              ∧ get_size_category_from_shoe_size [⟨"L", some 42, some 46, true⟩] (some 44) =
                  some t.name)
          ∧ ((∀ t ∈ [(⟨"L", some 42, some 46, true⟩ : SizeType)], sizeTypeMatches size t = false) →
            get_size_category_from_shoe_size [⟨"L", some 42, some 46, true⟩] (some 44) =
              some (if size ≤ 36 then "S"
                    else if size ≤ 41 then "M"
                    else if size ≤ 46 then "L"
                    else "XL")) :=
  get_size_category_amended [⟨"L", some 42, some 46, true⟩] (some 44)
